import Mathlib

/-!
Shallow embedding of the naturedopes-cli core (Go) in Lean 4:
the API client (pkg/api/client.go, pkg/api/images.go), the configuration
store (pkg/config), and the keys-listing command loop (cmd/keys.go).

Modelling conventions:
* Go byte slices that hold UTF-8 text are modelled as `String`; where the
  byte-level view matters (URL escaping, Go string slicing) we go through
  `String.toUTF8`.
* A Go `[]byte` request body is `Option String`: `none` models the `nil`
  slice, `some s` a non-nil slice with contents `s` (possibly empty).
* Fallible Go functions returning `(T, error)` become `Except String T`;
  the error strings reproduce the `fmt.Errorf` format strings of the source.
* The filesystem visible to the configuration store is a small explicit
  state (`FSState`): the contents of the single config file, the mode bits
  it was created with, and the two environment variables the store reads.
-/

namespace NatureDopes

/-- The UTF-8 bytes of a Go string (the logical content of
`String.toUTF8`, stated over plain lists so the kernel can evaluate it). -/
def stringBytes (s : String) : List UInt8 :=
  s.data.flatMap String.utf8EncodeChar

/-- The client record from pkg/api/client.go: `type Client struct`
(the `HTTPClient` field is the transport collaborator, passed explicitly
to `doRequest` below). -/
structure Client where
  BaseUrl : String
  APIKey : String
deriving DecidableEq, Repr

/-- An outgoing HTTP request as assembled by `doRequest`:
method, fully concatenated URL, the headers set on it, and the body. -/
structure Request where
  method : String
  url : String
  headers : List (String × String)
  body : Option String
deriving DecidableEq, Repr

/-- An HTTP response as seen by `doRequest` after `io.ReadAll`:
the status code and the full body text. -/
structure HTTPResponse where
  statusCode : Nat
  body : String
deriving DecidableEq, Repr

/-- The request-construction half of `doRequest` (client.go lines 80-97):
`url := c.BaseUrl + path`; a non-nil body is attached and triggers
`req.Header.Set("Content-Type", "application/json")`; a non-empty API key
triggers `req.Header.Set("X-API-Key", c.APIKey)`. (Header names are kept
as written at the call sites; Go canonicalizes them case-insensitively.) -/
def buildRequest (c : Client) (method path : String) (body : Option String) : Request :=
  { method := method
    url := c.BaseUrl ++ path
    headers :=
      (if body.isSome then [("Content-Type", "application/json")] else []) ++
      (if c.APIKey ≠ "" then [("X-API-Key", c.APIKey)] else [])
    body := body }

/-- Case-sensitive header lookup on the modelled request (all names are
written identically at the single call site, so case never differs). -/
def lookupHeader (req : Request) (name : String) : Option String :=
  (req.headers.find? (fun p => p.1 == name)).map (fun p => p.2)

/-- The response-classification half of `doRequest` (client.go lines 111-115):
status ≥ 400 becomes the error
`fmt.Errorf("returned status code: %d , message: %s ", resp.StatusCode, string(respBody))`,
otherwise the raw body bytes are returned. -/
def handleResponse (resp : HTTPResponse) : Except String String :=
  if 400 ≤ resp.statusCode then
    .error ("returned status code: " ++ toString resp.statusCode ++
            " , message: " ++ resp.body ++ " ")
  else
    .ok resp.body

/-- The function `doRequest` (client.go lines 78-117) over an explicit transport
(the `HTTPClient.Do` collaborator): build the request, send it, read the
body, classify the status. A transport-level failure is wrapped as
`"could not send request err: %w"`. -/
def doRequest (c : Client) (method path : String) (body : Option String)
    (transport : Request → Except String HTTPResponse) : Except String String :=
  match transport (buildRequest c method path body) with
  | .error e => .error ("could not send request err: " ++ e)
  | .ok resp => handleResponse resp

/-- String `hay` contains `needle` as a contiguous substring. -/
def strContains (hay needle : String) : Prop :=
  ∃ pre post, hay = pre ++ needle ++ post

/-- Length of a Go byte slice modelled as `Option String`
(`len(nil) = 0`, `len(b) = number of bytes`). -/
def goBodyLen (b : Option String) : Nat :=
  match b with
  | none => 0
  | some s => (stringBytes s).length

/-! ## URL query construction (net/url as used by SearchImages) -/

/-- Uppercase hexadecimal digit, as the Go `"0123456789ABCDEF"` table used
by percent-encoding. -/
def upperHexDigit (n : Nat) : Char :=
  if n < 10 then Char.ofNat (48 + n) else Char.ofNat (55 + n)

/-- The bytes that Go `url.QueryEscape` leaves unescaped
(`shouldEscape(c, encodeQueryComponent) = false`): ASCII alphanumerics and
`-`, `_`, `.`, `~`. -/
def isUnreservedQueryByte (n : Nat) : Bool :=
  (48 ≤ n && n ≤ 57) || (65 ≤ n && n ≤ 90) || (97 ≤ n && n ≤ 122) ||
  n == 45 || n == 95 || n == 46 || n == 126

/-- The Go `url.QueryEscape` function: operates on the UTF-8 bytes; space becomes `+`,
unreserved bytes pass through, every other byte becomes `%XX` with
uppercase hex. -/
def queryEscape (s : String) : String :=
  String.mk ((stringBytes s).foldr
    (fun b acc =>
      let n := b.toNat
      if n == 32 then '+' :: acc
      else if isUnreservedQueryByte n then Char.ofNat n :: acc
      else '%' :: upperHexDigit (n / 16) :: upperHexDigit (n % 16) :: acc)
    [])

/-- Stable insertion of a key-value pair into a list sorted by key,
placing it after existing pairs with a smaller-or-equal key. -/
def insertByKey (p : String × String) : List (String × String) → List (String × String)
  | [] => [p]
  | q :: rest => if p.1 < q.1 then p :: q :: rest else q :: insertByKey p rest

/-- Sort key-value pairs by key (the Go `url.Values.Encode` method sorts the keys). -/
def sortByKey : List (String × String) → List (String × String)
  | [] => []
  | p :: rest => insertByKey p (sortByKey rest)

/-- The Go `url.Values.Encode` method: keys in sorted order, each pair rendered as
`QueryEscape(k) + "=" + QueryEscape(v)`, joined by `&`. (The modelled
values carry one string per key, as SearchImages builds them.) -/
def valuesEncode (params : List (String × String)) : String :=
  String.intercalate "&"
    ((sortByKey params).map (fun p => queryEscape p.1 ++ "=" ++ queryEscape p.2))

/-- The path `SearchImages` (part_007, lines 45-74) passes to `doRequest`:
start from `/images`; add `species_name=<species>` only when species is
non-empty and `user_id=<userID>` only when userID > 0; append
`"?" + params.Encode()` only when at least one parameter was added. -/
def searchImagesPath (species : String) (userID : Int) : String :=
  let params : List (String × String) :=
    (if species ≠ "" then [("species_name", species)] else []) ++
    (if userID > 0 then [("user_id", toString userID)] else [])
  if params.length > 0 then "/images" ++ "?" ++ valuesEncode params
  else "/images"

/-! ## Go string slicing as used by the keys-list command -/

/-- The ApiKey record (pkg/models, fields as read by cmd/keys.go and
described in the spec data model): numeric id, the key text, a name,
server-formatted timestamps, an optional last-used timestamp, and the
revoked flag. -/
structure ApiKey where
  ID : Int
  Key : String
  Name : String
  CreatedAt : String
  ExpiresAt : String
  LastUsed : Option String
  Revoked : Bool
deriving DecidableEq, Repr

/-- Go `len(s)` for a string: the number of UTF-8 bytes. -/
def goByteLen (s : String) : Nat := (stringBytes s).length

/-- Go slicing `s[:n]` on a string: the first `n` bytes when `n ≤ len(s)`,
otherwise a run-time panic (slice bounds out of range), modelled as
`none`. -/
def goSliceTo (s : String) (n : Nat) : Option (List UInt8) :=
  if n ≤ goByteLen s then some ((stringBytes s).take n) else none

/-- The key field as printed by one iteration of the keys-list loop
(part_001 lines 127-129): the expression `k.Key[:8]`. -/
def listKeysDisplayKey (k : ApiKey) : Option (List UInt8) :=
  goSliceTo k.Key 8

/-- The keys-list printing loop over the records `ListKeys` returned:
evaluates `k.Key[:8]` for each record in order; a panic on any record
aborts the whole command (`none`; the lines already printed before the
panic are not modelled). -/
def listKeysRun : List ApiKey → Option (List (List UInt8))
  | [] => some []
  | k :: rest =>
    match listKeysDisplayKey k with
    | none => none
    | some d =>
      match listKeysRun rest with
      | some ds => some (d :: ds)
      | none => none

/-! ## Configuration store (pkg/config)

The authoritative revision is the complete config module at the tail of
src/pkg/api/images.go (lines 191-322): it is the only revision containing
`Save`, `Set` and `Get`, and its `Load` reads the `API_URL` / `API_KEY`
environment variables. src/unnamed/part_008 is an earlier snapshot of the
same file (its progress notes mark `Save` as still to be written).

`encoding/json` is a standard-library collaborator; it is modelled here on
the JSON fragment the store exchanges (a flat object with scalar values,
which covers everything `Save` writes): `escapeChar`/`renderConfig` mirror
`json.MarshalIndent` and `parseStringLit`/`parseMembers`/`unmarshalConfig`
mirror `json.Unmarshal` into the Config struct. -/

/-- The record `type Config struct` with tags `json:"api_url"` and `json:"api_key"`. -/
structure Config where
  ApiURL : String
  ApiKey : String
deriving DecidableEq, Repr

/-- The zero value `var config Config` that `json.Unmarshal` fills. -/
def configZero : Config := { ApiURL := "", ApiKey := "" }

/-- Lowercase hexadecimal digit, the `encoding/json` table `"0123456789abcdef"`
table used in `\u00XX` escapes. -/
def jsonHexDigit (n : Nat) : Char :=
  if n < 10 then Char.ofNat (48 + n) else Char.ofNat (87 + n)

/-- How `json.Marshal` (with its default HTML escaping) writes one
character of a string: `"` and `\` get a backslash; newline, carriage
return and tab use their short escapes; other control characters become
`\u00XX`; `<`, `>`, `&` become `\u003c`, `\u003e`, `\u0026`; U+2028 and
U+2029 are escaped; everything else passes through. -/
def escapeChar (c : Char) : List Char :=
  if c = '"' then ['\\', '"']
  else if c = '\\' then ['\\', '\\']
  else if c = '\n' then ['\\', 'n']
  else if c = '\r' then ['\\', 'r']
  else if c = '\t' then ['\\', 't']
  else if c.toNat < 0x20 then
    ['\\', 'u', '0', '0', jsonHexDigit (c.toNat / 16), jsonHexDigit (c.toNat % 16)]
  else if c = '<' then ['\\', 'u', '0', '0', '3', 'c']
  else if c = '>' then ['\\', 'u', '0', '0', '3', 'e']
  else if c = '&' then ['\\', 'u', '0', '0', '2', '6']
  else if c = '\u2028' then ['\\', 'u', '2', '0', '2', '8']
  else if c = '\u2029' then ['\\', 'u', '2', '0', '2', '9']
  else [c]

/-- Application of `escapeChar` over a whole string. -/
def escapeList : List Char → List Char
  | [] => []
  | c :: cs => escapeChar c ++ escapeList cs

/-- The exact file text `json.MarshalIndent(config, "", "  ")` produces for
the two-field Config struct: fields in declaration order, each member on
its own line indented by two spaces; rendered character by character, it
is `\x7b\n  "api_url": "<escaped url>",\n  "api_key": "<escaped key>"\n\x7d`
(`\x7b`/`\x7d` denoting the braces). -/
def renderConfig (cfg : Config) : String :=
  String.mk
    ('\x7b' :: '\n' :: ' ' :: ' ' :: '"' :: 'a' :: 'p' :: 'i' :: '_' :: 'u' :: 'r' :: 'l' :: '"' :: ':' :: ' ' :: '"' ::
      (escapeList cfg.ApiURL.data ++
        ('"' :: ',' :: '\n' :: ' ' :: ' ' :: '"' :: 'a' :: 'p' :: 'i' :: '_' :: 'k' :: 'e' :: 'y' :: '"' :: ':' :: ' ' :: '"' ::
          (escapeList cfg.ApiKey.data ++
            ('"' :: '\n' :: '\x7d' :: [])))))

/-- Value of a hexadecimal digit character, either case. -/
def hexVal (c : Char) : Option Nat :=
  if 48 ≤ c.toNat ∧ c.toNat ≤ 57 then some (c.toNat - 48)
  else if 97 ≤ c.toNat ∧ c.toNat ≤ 102 then some (c.toNat - 87)
  else if 65 ≤ c.toNat ∧ c.toNat ≤ 70 then some (c.toNat - 55)
  else none

/-- JSON short escapes accepted by the decoder
(the scanner admits exactly these and `\uXXXX`). -/
def escDecode (c : Char) : Option Char :=
  if c = '"' then some '"'
  else if c = '\\' then some '\\'
  else if c = '/' then some '/'
  else if c = 'b' then some '\x08'
  else if c = 'f' then some '\x0c'
  else if c = 'n' then some '\n'
  else if c = 'r' then some '\r'
  else if c = 't' then some '\t'
  else none

/-- Prepend a decoded character to the result of parsing the remainder. -/
def consFst (c : Char) : Option (List Char × List Char) → Option (List Char × List Char)
  | some (s, r) => some (c :: s, r)
  | none => none

/-- Read one `\uXXXX` escape (Go `getu4`): requires a backslash, a `u`
and four hex digits; returns the code unit and the rest of the input. -/
def getu4 (cs : List Char) : Option (Nat × List Char) :=
  match cs with
  | '\\' :: 'u' :: h1 :: h2 :: h3 :: h4 :: rest =>
    match hexVal h1, hexVal h2, hexVal h3, hexVal h4 with
    | some d1, some d2, some d3, some d4 =>
      some (d1 * 4096 + d2 * 256 + d3 * 16 + d4, rest)
    | _, _, _, _ => none
  | _ => none

/-- A successful `getu4` consumes exactly six characters. -/
theorem getu4_length (cs : List Char) (code : Nat) (rest : List Char)
    (h : getu4 cs = some (code, rest)) : rest.length + 6 = cs.length := by
  unfold getu4 at h
  repeat' split at h
  all_goals simp_all

/-- JSON string-literal body (the decoder positioned just after the opening
quote): returns the decoded characters and the input after the closing
quote. Mirrors the Go scanner plus `unquote`: raw control characters are
rejected; `\uXXXX` escapes are decoded, combining a valid surrogate pair
and replacing an unpaired surrogate with U+FFFD. -/
def parseStringLit : List Char → Option (List Char × List Char)
  | [] => none
  | c :: rest =>
    if c = '"' then some ([], rest)
    else if c = '\\' then
      match rest with
      | 'u' :: h1 :: h2 :: h3 :: h4 :: rest3 =>
        match hexVal h1, hexVal h2, hexVal h3, hexVal h4 with
        | some d1, some d2, some d3, some d4 =>
          let code := d1 * 4096 + d2 * 256 + d3 * 16 + d4
          if 0xD800 ≤ code ∧ code < 0xE000 then
            match hg : getu4 rest3 with
            | some (code2, rest4) =>
              if code < 0xDC00 ∧ 0xDC00 ≤ code2 ∧ code2 < 0xE000 then
                consFst (Char.ofNat (0x10000 + (code - 0xD800) * 1024 + (code2 - 0xDC00)))
                  (parseStringLit rest4)
              else consFst '�' (parseStringLit rest3)
            | none => consFst '�' (parseStringLit rest3)
          else consFst (Char.ofNat code) (parseStringLit rest3)
        | _, _, _, _ => none
      | e :: rest2 =>
        match escDecode e with
        | some d => consFst d (parseStringLit rest2)
        | none => none
      | [] => none
    else if c.toNat < 0x20 then none
    else consFst c (parseStringLit rest)
termination_by cs => cs.length
decreasing_by
  all_goals first
    | (simp <;> omega)
    | (have hl := getu4_length _ _ _ hg; simp <;> omega)

/-- Scalar JSON values (all that a flat config object can contain). -/
inductive Json where
  | null
  | bool (b : Bool)
  | num (text : List Char)
  | str (s : List Char)
deriving DecidableEq, Repr

/-- Split off a leading run of decimal digits. -/
def spanDigits : List Char → List Char × List Char
  | [] => ([], [])
  | c :: rest =>
    if c.isDigit then
      let p := spanDigits rest
      (c :: p.1, p.2)
    else ([], c :: rest)

/-- Optional fraction part `.[0-9]+` of a JSON number. -/
def parseFracPart : List Char → Option (List Char × List Char)
  | [] => some ([], [])
  | c :: rest =>
    if c = '.' then
      match spanDigits rest with
      | ([], _) => none
      | (ds, rest2) => some (c :: ds, rest2)
    else some ([], c :: rest)

/-- Optional exponent part `[eE][+-]?[0-9]+` of a JSON number. -/
def parseExpPart : List Char → Option (List Char × List Char)
  | [] => some ([], [])
  | c :: rest =>
    if c = 'e' ∨ c = 'E' then
      let signed : List Char × List Char :=
        match rest with
        | s :: rest2 => if s = '+' ∨ s = '-' then ([s], rest2) else ([], rest)
        | [] => ([], [])
      match spanDigits signed.2 with
      | ([], _) => none
      | (ds, rest3) => some (c :: signed.1 ++ ds, rest3)
    else some ([], c :: rest)

/-- A JSON number per the strict grammar
`-?(0|[1-9][0-9]*)(\.[0-9]+)?([eE][+-]?[0-9]+)?`; returns its raw text. -/
def parseNumber (cs : List Char) : Option (List Char × List Char) :=
  let neg : List Char × List Char :=
    match cs with
    | '-' :: rest => (['-'], rest)
    | _ => ([], cs)
  match neg.2 with
  | [] => none
  | c :: rest =>
    if c = '0' then
      match parseFracPart rest with
      | none => none
      | some (ft, rest2) =>
        match parseExpPart rest2 with
        | none => none
        | some (et, rest3) => some (neg.1 ++ c :: (ft ++ et), rest3)
    else if c.isDigit then
      match spanDigits rest with
      | (ds, rest1) =>
        match parseFracPart rest1 with
        | none => none
        | some (ft, rest2) =>
          match parseExpPart rest2 with
          | none => none
          | some (et, rest3) => some (neg.1 ++ c :: (ds ++ ft ++ et), rest3)
    else none

/-- One scalar JSON value. -/
def parseScalar : List Char → Option (Json × List Char)
  | '"' :: rest =>
    (match parseStringLit rest with
     | some (s, r) => some (Json.str s, r)
     | none => none)
  | 't' :: 'r' :: 'u' :: 'e' :: rest => some (Json.bool true, rest)
  | 'f' :: 'a' :: 'l' :: 's' :: 'e' :: rest => some (Json.bool false, rest)
  | 'n' :: 'u' :: 'l' :: 'l' :: rest => some (Json.null, rest)
  | cs =>
    match parseNumber cs with
    | some (txt, rest) => some (Json.num txt, rest)
    | none => none

/-- Skip JSON whitespace. -/
def skipWs : List Char → List Char
  | [] => []
  | c :: rest =>
    if c = ' ' ∨ c = '\t' ∨ c = '\n' ∨ c = '\r' then skipWs rest else c :: rest

/-- One `"key": value` member, positioned at its opening quote. -/
def parseMember (cs : List Char) : Option ((List Char × Json) × List Char) :=
  match cs with
  | '"' :: cs2 =>
    match parseStringLit cs2 with
    | some (key, rest) =>
      match skipWs rest with
      | ':' :: rest2 =>
        match parseScalar (skipWs rest2) with
        | some (v, rest3) => some ((key, v), rest3)
        | none => none
      | _ => none
    | none => none
  | _ => none

/-- The member list of a non-empty object, positioned at the first member;
consumes through the closing brace. The fuel only bounds the number of
members and is always called with more fuel than members can exist
(each member consumes at least one character). -/
def parseMembers : Nat → List Char → Option (List (List Char × Json) × List Char)
  | 0, _ => none
  | fuel + 1, cs =>
    match parseMember cs with
    | none => none
    | some (kv, rest) =>
      match skipWs rest with
      | ',' :: rest2 =>
        (match parseMembers fuel (skipWs rest2) with
         | some (kvs, rest3) => some (kv :: kvs, rest3)
         | none => none)
      | '\x7d' :: rest2 => some ([kv], rest2)
      | _ => none

/-- The struct tag `json:"api_url"` as characters. -/
def apiUrlTag : List Char := ['a', 'p', 'i', '_', 'u', 'r', 'l']

/-- The struct tag `json:"api_key"` as characters. -/
def apiKeyTag : List Char := ['a', 'p', 'i', '_', 'k', 'e', 'y']

/-- Key matching of Go `Unmarshal` for struct fields: an exact tag match,
or a case-insensitive fold onto the tag (tags here are lowercase ASCII). -/
def keyFoldMatch (key tag : List Char) : Bool :=
  key == tag || key.map Char.toLower == tag

/-- Decoding one object member into the Config struct: a matching key must
hold a string (JSON `null` is a no-op, any other type is an unmarshal type
error); unknown keys are ignored. -/
def applyField (cfg : Config) (key : List Char) (v : Json) : Option Config :=
  if keyFoldMatch key apiUrlTag then
    match v with
    | Json.str s => some { cfg with ApiURL := String.mk s }
    | Json.null => some cfg
    | _ => none
  else if keyFoldMatch key apiKeyTag then
    match v with
    | Json.str s => some { cfg with ApiKey := String.mk s }
    | Json.null => some cfg
    | _ => none
  else some cfg

/-- Members applied in order to the zero value (a duplicate key is applied
twice, so the later value wins, as in Go). -/
def foldMembers : Config → List (List Char × Json) → Option Config
  | cfg, [] => some cfg
  | cfg, (k, v) :: rest =>
    match applyField cfg k v with
    | some cfg2 => foldMembers cfg2 rest
    | none => none

/-- Model of `json.Unmarshal(fileContent, &config)`: a single top-level object with
scalar members and no trailing data. -/
def unmarshalConfig (content : String) : Option Config :=
  match skipWs content.data with
  | '\x7b' :: cs2 =>
    match skipWs cs2 with
    | '\x7d' :: rest => if (skipWs rest).isEmpty then some configZero else none
    | cs3 =>
      match parseMembers (cs3.length + 2) cs3 with
      | some (members, rest) =>
        if (skipWs rest).isEmpty then foldMembers configZero members else none
      | none => none
  | _ => none

/-! ## Filesystem state and operations of the store -/

/-- What the store can observe and change: the contents of
`~/.naturedopes-cli/config.json`, the mode bits the file and its directory
were created with, and the two environment variables `Load` reads. The
home directory lookup and raw I/O failures are OS collaborators outside
the model (`Load`/`Save` would surface them as IOErrors). -/
structure FSState where
  file : Option String
  filePerm : Option Nat
  dirPerm : Option Nat
  envApiUrl : String
  envApiKey : String
deriving DecidableEq, Repr

/-- The operation `Load()` (images.go lines 218-251): if the file does not exist, return
a default built from `API_URL` (falling back to `http://localhost:8080`)
and `API_KEY`, creating nothing; otherwise read the file and unmarshal it.
The state is threaded to show `Load` performs no write. -/
def LoadM (fs : FSState) : Except String Config × FSState :=
  match fs.file with
  | none =>
    (.ok { ApiURL := if fs.envApiUrl = "" then "http://localhost:8080" else fs.envApiUrl
           ApiKey := fs.envApiKey }, fs)
  | some content =>
    match unmarshalConfig content with
    | some cfg => (.ok cfg, fs)
    | none => (.error "could not unmarshal JSON", fs)

/-- The operation `(config *Config) Save()` (images.go lines 253-279):
`os.MkdirAll(configDir, 0755)` (mode applies only if the directory is
created), `json.MarshalIndent(config, "", "  ")`, and
`os.WriteFile(path, data, 0644)` (mode applies only if the file is
created; an existing file is truncated and rewritten). -/
def SaveM (cfg : Config) (fs : FSState) : Except String Unit × FSState :=
  (.ok (),
   { fs with
     dirPerm := match fs.dirPerm with | some p => some p | none => some 0o755
     filePerm := match fs.filePerm with | some p => some p | none => some 0o644
     file := some (renderConfig cfg) })

/-- The operation `Set(key, value)` (images.go lines 281-304): load, switch on the key
(`"api-url"`, `"api-key"`, otherwise `invalid key: %s`), save. Load and
save failures are wrapped and propagated; the invalid-key path returns
before any write. -/
def SetM (key value : String) (fs : FSState) : Except String Unit × FSState :=
  match LoadM fs with
  | (.error e, fs1) => (.error ("could not load config file: " ++ e), fs1)
  | (.ok cfg, fs1) =>
    if key = "api-url" then
      match SaveM { cfg with ApiURL := value } fs1 with
      | (.ok _, fs2) => (.ok (), fs2)
      | (.error e, fs2) => (.error ("could not save config file: " ++ e), fs2)
    else if key = "api-key" then
      match SaveM { cfg with ApiKey := value } fs1 with
      | (.ok _, fs2) => (.ok (), fs2)
      | (.error e, fs2) => (.error ("could not save config file: " ++ e), fs2)
    else (.error ("invalid key: " ++ key), fs1)

/-- The operation `Get(key)` (images.go lines 306-322): load, then switch on the key. -/
def GetM (key : String) (fs : FSState) : Except String String :=
  match (LoadM fs).1 with
  | .error e => .error ("could not load config file: " ++ e)
  | .ok cfg =>
    if key = "api-url" then .ok cfg.ApiURL
    else if key = "api-key" then .ok cfg.ApiKey
    else .error ("invalid key: " ++ key)

/-! ## Round-trip of the modelled marshal/unmarshal pair -/

/-- The function `hexVal` inverts the lowercase hex-digit table on digits below 16. -/
theorem hexVal_jsonHexDigit (n : Nat) (h : n < 16) : hexVal (jsonHexDigit n) = some n := by
  interval_cases n <;> rfl

/-- Parsing the escape of one character at the head of the input decodes
exactly that character (whichever escape class it falls in). -/
theorem parseStringLit_escapeChar (c : Char) (tail : List Char) :
    parseStringLit (escapeChar c ++ tail) = consFst c (parseStringLit tail) := by
  by_cases h1 : c = '"'
  · subst h1
    rw [show escapeChar '"' = ['\\', '"'] from rfl]
    simp only [List.cons_append, List.nil_append]
    rw [parseStringLit.eq_def]
    simp [escDecode]
  by_cases h2 : c = '\\'
  · subst h2
    rw [show escapeChar '\\' = ['\\', '\\'] from rfl]
    simp only [List.cons_append, List.nil_append]
    rw [parseStringLit.eq_def]
    simp [escDecode]
  by_cases h3 : c = '\n'
  · subst h3
    rw [show escapeChar '\n' = ['\\', 'n'] from rfl]
    simp only [List.cons_append, List.nil_append]
    rw [parseStringLit.eq_def]
    simp [escDecode]
  by_cases h4 : c = '\r'
  · subst h4
    rw [show escapeChar '\r' = ['\\', 'r'] from rfl]
    simp only [List.cons_append, List.nil_append]
    rw [parseStringLit.eq_def]
    simp [escDecode]
  by_cases h5 : c = '\t'
  · subst h5
    rw [show escapeChar '\t' = ['\\', 't'] from rfl]
    simp only [List.cons_append, List.nil_append]
    rw [parseStringLit.eq_def]
    simp [escDecode]
  by_cases h6 : c.toNat < 0x20
  · have hd1 := hexVal_jsonHexDigit (c.toNat / 16) (by omega)
    have hd0 := hexVal_jsonHexDigit (c.toNat % 16) (by omega)
    have hc : c.toNat / 16 * 16 + c.toNat % 16 = c.toNat := by omega
    rw [escapeChar, if_neg h1, if_neg h2, if_neg h3, if_neg h4, if_neg h5, if_pos h6]
    simp only [List.cons_append, List.nil_append]
    rw [parseStringLit.eq_def]
    simp only [reduceCtorEq, reduceIte, hd1, hd0, show hexVal '0' = some 0 from rfl]
    simp only [Nat.zero_mul, Nat.zero_add, hc]
    simp [Char.ofNat_toNat]
    intros
    exfalso
    omega
  by_cases h7 : c = '<'
  · subst h7
    rw [show escapeChar '<' = ['\\', 'u', '0', '0', '3', 'c'] from rfl]
    simp only [List.cons_append, List.nil_append]
    rw [parseStringLit.eq_def]
    simp [hexVal]
  by_cases h8 : c = '>'
  · subst h8
    rw [show escapeChar '>' = ['\\', 'u', '0', '0', '3', 'e'] from rfl]
    simp only [List.cons_append, List.nil_append]
    rw [parseStringLit.eq_def]
    simp [hexVal]
  by_cases h9 : c = '&'
  · subst h9
    rw [show escapeChar '&' = ['\\', 'u', '0', '0', '2', '6'] from rfl]
    simp only [List.cons_append, List.nil_append]
    rw [parseStringLit.eq_def]
    simp [hexVal]
  by_cases h10 : c = '\u2028'
  · subst h10
    rw [show escapeChar '\u2028' = ['\\', 'u', '2', '0', '2', '8'] from rfl]
    simp only [List.cons_append, List.nil_append]
    rw [parseStringLit.eq_def]
    simp [hexVal]
  by_cases h11 : c = '\u2029'
  · subst h11
    rw [show escapeChar '\u2029' = ['\\', 'u', '2', '0', '2', '9'] from rfl]
    simp only [List.cons_append, List.nil_append]
    rw [parseStringLit.eq_def]
    simp [hexVal]
  rw [escapeChar, if_neg h1, if_neg h2, if_neg h3, if_neg h4, if_neg h5, if_neg h6,
    if_neg h7, if_neg h8, if_neg h9, if_neg h10, if_neg h11]
  simp only [List.cons_append, List.nil_append]
  rw [parseStringLit.eq_def]
  simp [h1, h2, h6]

/-- Decoding inverts escaping: parsing the escaped text of `s` followed by
a closing quote returns exactly `s` and the trailing input. -/
theorem parseStringLit_escapeList (s rest : List Char) :
    parseStringLit (escapeList s ++ '"' :: rest) = some (s, rest) := by
  induction s with
  | nil =>
    rw [escapeList, List.nil_append, parseStringLit.eq_def]
    simp
  | cons c s ih =>
    rw [escapeList, List.append_assoc, parseStringLit_escapeChar, ih]
    rfl

/-- A quote at the head of the string body closes it. -/
theorem parseStringLit_quote (tail : List Char) :
    parseStringLit ('"' :: tail) = some ([], tail) := by
  rw [parseStringLit.eq_def]
  simp

/-- An ordinary character at the head of the string body is consumed
literally. -/
theorem parseStringLit_lit (c : Char) (tail : List Char)
    (h1 : ¬c = '"') (h2 : ¬c = '\\') (h3 : ¬c.toNat < 0x20) :
    parseStringLit (c :: tail) = consFst c (parseStringLit tail) := by
  rw [parseStringLit.eq_def]
  simp [h1, h2, h3]

/-- Building a string from its character list is the identity. -/
theorem mk_data (s : String) : String.mk s.data = s := rfl

/-- The marshal/unmarshal round trip: decoding the rendered file text of
any Config yields that Config back. -/
theorem unmarshalConfig_renderConfig (cfg : Config) :
    unmarshalConfig (renderConfig cfg) = some cfg := by
  obtain ⟨u, k⟩ := cfg
  rw [unmarshalConfig, renderConfig]
  simp [skipWs, parseMembers, parseMember, parseScalar, parseStringLit_quote,
    parseStringLit_lit, parseStringLit_escapeList, consFst, foldMembers,
    applyField, keyFoldMatch, apiUrlTag, apiKeyTag, configZero, mk_data]

/-- Loading never changes the filesystem state. -/
theorem LoadM_snd (fs : FSState) : (LoadM fs).2 = fs := by
  rw [LoadM]
  cases fs.file with
  | none => rfl
  | some content => cases hu : unmarshalConfig content <;> simp [hu]

/-! ## Claims -/

/-- C1: for every HTTP response received by `doRequest`, a status code
≥ 400 yields an error that contains both the numeric status code and the
raw response body text (and no bytes); a status code < 400 yields the
response body unchanged and no error. -/
theorem doRequest_status_classification (c : Client) (method path : String)
    (body : Option String) (resp : HTTPResponse) :
    (400 ≤ resp.statusCode →
      ∃ e, doRequest c method path body (fun _ => .ok resp) = .error e ∧
        strContains e (toString resp.statusCode) ∧ strContains e resp.body) ∧
    (resp.statusCode < 400 →
      doRequest c method path body (fun _ => .ok resp) = .ok resp.body) := by
  constructor
  · intro h
    refine ⟨"returned status code: " ++ toString resp.statusCode ++
        " , message: " ++ resp.body ++ " ", ?_, ?_, ?_⟩
    · simp [doRequest, handleResponse, h]
    · exact ⟨"returned status code: ", " , message: " ++ resp.body ++ " ",
        by simp [String.append_assoc]⟩
    · exact ⟨"returned status code: " ++ toString resp.statusCode ++ " , message: ", " ",
        by simp [String.append_assoc]⟩
  · intro h
    simp [doRequest, handleResponse, Nat.not_le_of_lt h]

/-- Witness for C1 at status 404 with body `not found`, and status 200
with body `[]`. -/
theorem doRequest_status_classification_witness :
    (∃ e, doRequest ⟨"http://x", "k"⟩ "GET" "/images" none
        (fun _ => .ok ⟨404, "not found"⟩) = .error e ∧
      strContains e (toString (404 : Nat)) ∧ strContains e "not found") ∧
    doRequest ⟨"http://x", "k"⟩ "GET" "/images" none
        (fun _ => .ok ⟨200, "[]"⟩) = .ok "[]" := by
  constructor
  · exact (doRequest_status_classification ⟨"http://x", "k"⟩ "GET" "/images" none
      ⟨404, "not found"⟩).1 (by decide)
  · exact (doRequest_status_classification ⟨"http://x", "k"⟩ "GET" "/images" none
      ⟨200, "[]"⟩).2 (by decide)

/-- C2: saving any Config with non-empty apiURL and loading again returns
an equal Config (round trip through the persisted JSON text). -/
theorem save_load_roundtrip (cfg : Config) (fs : FSState) (h : cfg.ApiURL ≠ "") :
    (LoadM (SaveM cfg fs).2).1 = .ok cfg := by
  simp [SaveM, LoadM, unmarshalConfig_renderConfig]

/-- Witness for C2 at `Config ⟨"http://x", "k"⟩` on an empty filesystem. -/
theorem save_load_roundtrip_witness :
    ("http://x" : String) ≠ "" ∧
    (LoadM (SaveM ⟨"http://x", "k"⟩ ⟨none, none, none, "", ""⟩).2).1 =
      .ok ⟨"http://x", "k"⟩ :=
  ⟨by decide, save_load_roundtrip ⟨"http://x", "k"⟩ ⟨none, none, none, "", ""⟩ (by decide)⟩

/-- C3: the query strings `SearchImages` builds: species only, user id
only, neither (no query string), and URL encoding of a space in the
species value. -/
theorem searchImages_query_construction :
    searchImagesPath "Oak" 0 = "/images?species_name=Oak" ∧
    searchImagesPath "" 5 = "/images?user_id=5" ∧
    searchImagesPath "" 0 = "/images" ∧
    searchImagesPath "Red Oak" 0 = "/images?species_name=Red+Oak" :=
  ⟨by decide, by decide, by decide, by decide⟩

/-- C4: every request carries the `X-API-Key` header with the key of the
client exactly when the key is non-empty, and no such header otherwise. -/
theorem doRequest_api_key_header (c : Client) (method path : String) (body : Option String) :
    lookupHeader (buildRequest c method path body) "X-API-Key" =
      if c.APIKey = "" then none else some c.APIKey := by
  by_cases h : c.APIKey = "" <;> cases body <;>
    simp [buildRequest, lookupHeader, h, List.find?]

/-- C5: when no config file exists, `Load` returns the environment-based
default (`API_URL` falling back to `http://localhost:8080`, `API_KEY`
falling back to the empty string) and leaves the filesystem untouched. -/
theorem load_default_on_missing_file (fs : FSState) (h : fs.file = none) :
    LoadM fs =
      (.ok { ApiURL := if fs.envApiUrl = "" then "http://localhost:8080" else fs.envApiUrl
             ApiKey := fs.envApiKey }, fs) := by
  simp [LoadM, h]

/-- Witness for C5 on an empty filesystem with `API_KEY=K` and `API_URL`
unset. -/
theorem load_default_on_missing_file_witness :
    LoadM ⟨none, none, none, "", "K"⟩ =
      (.ok ⟨"http://localhost:8080", "K"⟩, ⟨none, none, none, "", "K"⟩) := by
  have h := load_default_on_missing_file ⟨none, none, none, "", "K"⟩ rfl
  simpa using h

/-- C6: on a loadable store, `Get` and `Set` with any key outside
`api-url`/`api-key` fail with the invalid-key error, and `Set` leaves the
filesystem unchanged (no write happens on this path). -/
theorem config_invalid_key_rejected (key value : String) (fs : FSState) (cfg : Config)
    (hk1 : key ≠ "api-url") (hk2 : key ≠ "api-key")
    (hL : (LoadM fs).1 = .ok cfg) :
    GetM key fs = .error ("invalid key: " ++ key) ∧
    SetM key value fs = (.error ("invalid key: " ++ key), fs) := by
  have hLM : LoadM fs = (.ok cfg, fs) := by
    have h2 := LoadM_snd fs
    cases hE : LoadM fs
    simp_all
  constructor
  · rw [GetM, hL]
    simp [hk1, hk2]
  · rw [SetM, hLM]
    simp [hk1, hk2]

/-- Witness for C6 with key `bogus` on an empty filesystem. -/
theorem config_invalid_key_rejected_witness :
    GetM "bogus" ⟨none, none, none, "", ""⟩ = .error ("invalid key: " ++ "bogus") ∧
    SetM "bogus" "v" ⟨none, none, none, "", ""⟩ =
      (.error ("invalid key: " ++ "bogus"), ⟨none, none, none, "", ""⟩) :=
  config_invalid_key_rejected "bogus" "v" ⟨none, none, none, "", ""⟩
    ⟨"http://localhost:8080", ""⟩ (by decide) (by decide) rfl

/-- C7 counterexample: a non-nil but empty body (Go `[]byte` of length 0)
still gets the JSON content-type header attached, refuting
"content-type is set iff the body is non-empty / no header when the body
is empty". -/
theorem content_type_empty_body_counterexample :
    goBodyLen (some "") = 0 ∧
    lookupHeader (buildRequest ⟨"http://x", ""⟩ "POST" "/api/keys" (some "")) "Content-Type" =
      some "application/json" :=
  ⟨rfl, rfl⟩

/-- C7 (amended): the JSON content-type header is set iff the supplied
body is non-nil (`isSome`), and the body — empty or not — is attached as
the payload exactly when non-nil. -/
theorem content_type_iff_body_non_nil (c : Client) (method path : String) (body : Option String) :
    lookupHeader (buildRequest c method path body) "Content-Type" =
      (if body.isSome then some "application/json" else none) ∧
    (buildRequest c method path body).body = body := by
  by_cases h : c.APIKey = "" <;> cases body <;>
    simp [buildRequest, lookupHeader, h, List.find?]

/-- C8 counterexample: `Save` creates the config file with mode 0644,
whose group and other permission digits are non-zero (group/other can
read), refuting "file permissions restricting access to owner
read/write". -/
theorem save_file_perm_counterexample :
    (SaveM ⟨"http://x", "k"⟩ ⟨none, none, none, "", ""⟩).2.filePerm = some 0o644 ∧
    0o644 / 8 % 8 ≠ 0 ∧ 0o644 % 8 ≠ 0 :=
  ⟨rfl, by decide, by decide⟩

/-- C8 (amended): a successful `Save` writes the config as JSON with
2-space indentation (the exact `MarshalIndent` text below), creates the
file with mode 0644 (owner read/write, group and other read — not
owner-only) and creates the containing directory with mode 0755
(owner rwx, group/other rx). -/
theorem save_writes_indented_json_0644 (cfg : Config) (fs : FSState)
    (hf : fs.filePerm = none) (hd : fs.dirPerm = none) :
    (SaveM cfg fs).1 = .ok () ∧
    (SaveM cfg fs).2.file =
      some (String.mk
        ('\x7b' :: '\n' :: ' ' :: ' ' :: '"' :: 'a' :: 'p' :: 'i' :: '_' :: 'u' :: 'r' :: 'l' :: '"' :: ':' :: ' ' :: '"' ::
          (escapeList cfg.ApiURL.data ++
            ('"' :: ',' :: '\n' :: ' ' :: ' ' :: '"' :: 'a' :: 'p' :: 'i' :: '_' :: 'k' :: 'e' :: 'y' :: '"' :: ':' :: ' ' :: '"' ::
              (escapeList cfg.ApiKey.data ++
                ('"' :: '\n' :: '\x7d' :: [])))))) ∧
    (SaveM cfg fs).2.filePerm = some 0o644 ∧
    (SaveM cfg fs).2.dirPerm = some 0o755 := by
  refine ⟨rfl, rfl, ?_, ?_⟩ <;> simp [SaveM, hf, hd]

/-- Witness for the amended C8 on an empty filesystem. -/
theorem save_writes_indented_json_0644_witness :
    (SaveM ⟨"http://x", "k"⟩ ⟨none, none, none, "", ""⟩).2.filePerm = some 0o644 ∧
    (SaveM ⟨"http://x", "k"⟩ ⟨none, none, none, "", ""⟩).2.dirPerm = some 0o755 :=
  ⟨(save_writes_indented_json_0644 ⟨"http://x", "k"⟩ ⟨none, none, none, "", ""⟩
      rfl rfl).2.2.1,
   (save_writes_indented_json_0644 ⟨"http://x", "k"⟩ ⟨none, none, none, "", ""⟩
      rfl rfl).2.2.2⟩

/-- C9: `Set` only changes the named field of the persisted Config:
after `Set("api-key", v)` the persisted api_url is what `Load` returned
before the call, and after `Set("api-url", v)` the persisted api_key is
unchanged. -/
theorem set_frame_preserves_other_field (fs : FSState) (cfg : Config) (v : String)
    (hL : (LoadM fs).1 = .ok cfg) :
    (LoadM (SetM "api-key" v fs).2).1 = .ok { ApiURL := cfg.ApiURL, ApiKey := v } ∧
    (LoadM (SetM "api-url" v fs).2).1 = .ok { ApiURL := v, ApiKey := cfg.ApiKey } := by
  have hLM : LoadM fs = (.ok cfg, fs) := by
    have h2 := LoadM_snd fs
    cases hE : LoadM fs
    simp_all
  obtain ⟨u, k⟩ := cfg
  constructor
  · rw [SetM, hLM]
    simp [SaveM, LoadM, unmarshalConfig_renderConfig]
  · rw [SetM, hLM]
    simp [SaveM, LoadM, unmarshalConfig_renderConfig]

/-- Witness for C9 from the default config on an empty filesystem. -/
theorem set_frame_preserves_other_field_witness :
    (LoadM (SetM "api-key" "X" ⟨none, none, none, "", ""⟩).2).1 =
      .ok ⟨"http://localhost:8080", "X"⟩ ∧
    (LoadM (SetM "api-url" "X" ⟨none, none, none, "", ""⟩).2).1 =
      .ok ⟨"X", ""⟩ := by
  have h := set_frame_preserves_other_field ⟨none, none, none, "", ""⟩
    ⟨"http://localhost:8080", ""⟩ "X" rfl
  simpa using h

/-- C10: the keys-list loop unconditionally evaluates `k.Key[:8]`: a key
of at least 8 bytes prints its first 8 bytes, and a key shorter than
8 bytes makes the whole command panic (slice bounds out of range) rather
than print or return an error. -/
theorem listKeys_key_slice_panics_short (keys : List ApiKey) (k : ApiKey) :
    (8 ≤ goByteLen k.Key →
      listKeysDisplayKey k = some ((stringBytes k.Key).take 8)) ∧
    (goByteLen k.Key < 8 → k ∈ keys → listKeysRun keys = none) := by
  constructor
  · intro h
    simp [listKeysDisplayKey, goSliceTo, h]
  · intro hlen hk
    induction keys with
    | nil => exact absurd hk (List.not_mem_nil k)
    | cons a rest ih =>
      rw [listKeysRun]
      rcases List.mem_cons.mp hk with heq | hmem
      · subst heq
        have hnone : listKeysDisplayKey k = none := by
          simp only [listKeysDisplayKey, goSliceTo]
          rw [if_neg (by omega)]
        rw [hnone]
      · rw [ih hmem]
        cases hd : listKeysDisplayKey a <;> simp [hd]

/-- Witness for C10: a 10-byte key displays its first 8 bytes; a 3-byte
key panics the whole listing. -/
theorem listKeys_key_slice_panics_short_witness :
    listKeysDisplayKey ⟨1, "abcdefgh12", "n", "c", "e", none, false⟩ =
      some ((stringBytes "abcdefgh12").take 8) ∧
    listKeysRun [⟨2, "abc", "n", "c", "e", none, false⟩] = none :=
  ⟨(listKeys_key_slice_panics_short [] ⟨1, "abcdefgh12", "n", "c", "e", none, false⟩).1
      (by decide),
   (listKeys_key_slice_panics_short [⟨2, "abc", "n", "c", "e", none, false⟩]
      ⟨2, "abc", "n", "c", "e", none, false⟩).2 (by decide) (by decide)⟩

end NatureDopes
